import Mathlib

/-!
Verification development for the Brahmastra backend
(`backend/threat_detection.py`, `backend/rate_limiter.py`,
`backend/self_healing.py`, `backend/anomaly_detection.py`).

The Python modules are shallowly embedded: machine floats (`time.time()`
values, metric readings) become exact rationals `ℚ`, Python `int()` becomes
truncation toward zero, `collections.deque(maxlen=n)` becomes a list with an
explicit bounded push, and `defaultdict` maps become association lists with
get-or-default reads.  External effects (the clock, `psutil` sensors, HTTP
health probes, subprocess restarts, logging) are passed in as explicit
parameters or oracle traces; the state transformations and arithmetic mirror
the source line by line.
-/

namespace Brahmastra

/-- Python `int()` applied to a rational: truncation toward zero. -/
def pyInt (q : ℚ) : ℤ := if 0 ≤ q then ⌊q⌋ else ⌈q⌉

/-- `deque(maxlen := m).append x`: append on the right, dropping from the
left whatever exceeds the bound. -/
def pushMaxlen {α : Type} (m : ℕ) (xs : List α) (x : α) : List α :=
  let ys := xs ++ [x]
  ys.drop (ys.length - m)

/-! ## Threat detection engine (`backend/threat_detection.py`) -/

/-- `MAX_FAILED_LOGINS = 5` — ban after N failures in window. -/
def MAX_FAILED_LOGINS : ℕ := 5

/-- `FAILED_LOGIN_WINDOW = 300` — rolling window (seconds). -/
def FAILED_LOGIN_WINDOW : ℚ := 300

/-- `BAN_DURATIONS = [3600, 21600, 86400, 604800]` — escalating 1h, 6h, 24h, 7d. -/
def BAN_DURATIONS : List ℚ := [3600, 21600, 86400, 604800]

/-- `FailedLoginRecord` dataclass: per-IP failed-login timestamps
(`deque(maxlen=200)`), optional ban expiry, offense count. -/
structure FailedLoginRecord where
  timestamps : List ℚ
  ban_until : Option ℚ
  offense_count : ℕ
deriving DecidableEq, Repr

/-- The `FailedLoginRecord()` default constructed by the `defaultdict`. -/
def FailedLoginRecord.init : FailedLoginRecord := ⟨[], none, 0⟩

/-- One entry of the `_payload_hits` deque (the dict appended by
`inspect_payload`). -/
structure PayloadHit where
  ip : String
  type : String
  path : String
  timestamp : ℚ
deriving DecidableEq, Repr

/-- Engine state: the fields of `ThreatDetectionEngine` the verified
operations touch (`_failed_logins`, `_payload_hits`, `_kill_switch_active`).
The `defaultdict` is an association list. -/
structure EngineState where
  failed_logins : List (String × FailedLoginRecord)
  payload_hits : List PayloadHit
  kill_switch_active : Bool
deriving DecidableEq, Repr

/-- The engine as freshly constructed (before `_load_bans`). -/
def EngineState.fresh : EngineState := ⟨[], [], false⟩

/-- Dictionary lookup in the `_failed_logins` map. -/
def lookupRec (m : List (String × FailedLoginRecord)) (ip : String) :
    Option FailedLoginRecord :=
  match m with
  | [] => none
  | (k, r) :: rest => if k = ip then some r else lookupRec rest ip

/-- `defaultdict` read `self._failed_logins[ip]`: the stored record, or a
fresh `FailedLoginRecord()`. -/
def getRec (m : List (String × FailedLoginRecord)) (ip : String) :
    FailedLoginRecord :=
  (lookupRec m ip).getD FailedLoginRecord.init

/-- Store a record under `ip` (replace if present, insert otherwise) —
the write-back of mutation through the `defaultdict` reference. -/
def setRec (m : List (String × FailedLoginRecord)) (ip : String)
    (r : FailedLoginRecord) : List (String × FailedLoginRecord) :=
  match m with
  | [] => [(ip, r)]
  | (k, v) :: rest => if k = ip then (k, r) :: rest else (k, v) :: setRec rest ip r

/-- `_ban_ip(ip, reason)` at clock value `now`: pick the duration from
`BAN_DURATIONS` at index `min(offense_count, len-1)`, set
`ban_until = now + duration`, increment `offense_count`.  Returns the
duration together with the new state.  (`_save_bans` writes a snapshot to
disk and does not change the in-memory state; it is modelled by `saveBans`
below.) -/
def banIp (s : EngineState) (ip : String) (now : ℚ) : ℚ × EngineState :=
  let rec0 := getRec s.failed_logins ip
  let offense_idx := min rec0.offense_count (BAN_DURATIONS.length - 1)
  let duration := BAN_DURATIONS.getD offense_idx 0
  let rec1 : FailedLoginRecord :=
    { rec0 with ban_until := some (now + duration),
                offense_count := rec0.offense_count + 1 }
  (duration, { s with failed_logins := setRec s.failed_logins ip rec1 })

/-- The `while rec.timestamps and now - rec.timestamps[0] > FAILED_LOGIN_WINDOW:
rec.timestamps.popleft()` loop of `record_failed_login`. -/
def pruneWindow (now : ℚ) : List ℚ → List ℚ
  | [] => []
  | t :: ts => if now - t > FAILED_LOGIN_WINDOW then pruneWindow now ts else t :: ts

/-- `record_failed_login(ip)` at clock value `now`.  Prunes the rolling
window, appends `now` (deque maxlen 200), and bans the IP once the count
reaches `MAX_FAILED_LOGINS`.  Returns `True` iff the IP was banned. -/
def recordFailedLogin (s : EngineState) (ip : String) (now : ℚ) :
    Bool × EngineState :=
  let rec0 := getRec s.failed_logins ip
  let ts := pushMaxlen 200 (pruneWindow now rec0.timestamps) now
  let s1 : EngineState :=
    { s with failed_logins := setRec s.failed_logins ip { rec0 with timestamps := ts } }
  if MAX_FAILED_LOGINS ≤ ts.length then
    (true, (banIp s1 ip now).2)
  else
    (false, s1)

/-- `record_successful_login(ip)`: if the IP has a record, clear its
timestamps only (`ban_until` is deliberately left to expire naturally). -/
def recordSuccessfulLogin (s : EngineState) (ip : String) : EngineState :=
  match lookupRec s.failed_logins ip with
  | none => s
  | some rec0 =>
    { s with failed_logins := setRec s.failed_logins ip { rec0 with timestamps := [] } }

/-- `is_ip_banned(ip)` at clock value `now`.  Returns
`(banned, remaining-seconds)` and the (possibly lazily-expired) state. -/
def isIpBanned (s : EngineState) (ip : String) (now : ℚ) :
    (Bool × Option ℤ) × EngineState :=
  match lookupRec s.failed_logins ip with
  | none => ((false, none), s)
  | some rec0 =>
    match rec0.ban_until with
    | none => ((false, none), s)
    | some bu =>
      if now < bu then
        ((true, some (pyInt (bu - now))), s)
      else
        ((false, none),
         { s with failed_logins :=
            setRec s.failed_logins ip { rec0 with ban_until := none, timestamps := [] } })

/-- The body of the `_save_bans` loop for one `(ip, rec)` entry: kept iff
`rec.ban_until and rec.ban_until > now` (Python truthiness of the float
`ban_until` also rejects `0.0`). -/
def saveEntry (now : ℚ) (kv : String × FailedLoginRecord) :
    Option (String × ℚ × ℕ) :=
  match kv.2.ban_until with
  | none => none
  | some bu => if bu ≠ 0 ∧ bu > now then some (kv.1, bu, kv.2.offense_count) else none

/-- `_save_bans()` at clock value `now`: the snapshot written to
`BAN_STATE_FILE` — every IP whose record has a truthy `ban_until` lying in
the future, with its expiry and offense count. -/
def saveBans (s : EngineState) (now : ℚ) : List (String × ℚ × ℕ) :=
  s.failed_logins.filterMap (saveEntry now)

/-- The body of the `_load_bans` loop for one snapshot entry: the
`defaultdict` creates (or finds) the record and its `ban_until` and
`offense_count` are restored. -/
def loadEntry (s : EngineState) (ip : String) (bu : ℚ) (oc : ℕ) : EngineState :=
  let rec0 := getRec s.failed_logins ip
  { s with failed_logins := setRec s.failed_logins ip { rec0 with ban_until := some bu, offense_count := oc } }

/-- `_load_bans()` at clock value `now`: fold the snapshot into the engine,
keeping only entries whose expiry is still in the future. -/
def loadBans : EngineState → List (String × ℚ × ℕ) → ℚ → EngineState
  | s, [], _ => s
  | s, (ip, bu, oc) :: rest, now =>
    loadBans (if bu > now then loadEntry s ip bu oc else s) rest now

/-- Running `record_failed_login` once per clock value in a list,
threading the engine state; collects the returned booleans. -/
def runFailedLogins : EngineState → String → List ℚ → List Bool × EngineState
  | s, _, [] => ([], s)
  | s, ip, t :: ts =>
    let r := recordFailedLogin s ip t
    let rest := runFailedLogins r.2 ip ts
    (r.1 :: rest.1, rest.2)

/-! ## Payload inspection (`inspect_payload` and the pattern constants)

The four `re.compile(..., re.IGNORECASE)` patterns are hand-compiled into
decidable matchers over the lowercased character list (`re.IGNORECASE`
becomes lowercasing; `\b` is the word/non-word boundary; `.`/`.*` never
crosses a newline; `\s` is Python whitespace and does include newlines). -/

/-- Lowercased character list of a string (ASCII case folding, which is all
the patterns use). -/
def lowerChars (s : String) : List Char := s.data.map Char.toLower

/-- Python regex `\w` (ASCII range): letters, digits, underscore. -/
def isWordChar (c : Char) : Bool := c.isAlphanum || c = '_'

/-- Python regex `\s`: space, tab, newline, carriage return, vertical tab,
form feed. -/
def isPyWs (c : Char) : Bool :=
  c = ' ' || c = '\t' || c = '\n' || c = '\r' || c = '\x0b' || c = '\x0c'

/-- `pat` matches at the head of `s`. -/
def isPrefixL : List Char → List Char → Bool
  | [], _ => true
  | _ :: _, [] => false
  | p :: ps, c :: cs => p == c && isPrefixL ps cs

/-- `pat` occurs somewhere in `s` (regex `search` of a literal). -/
def containsL : List Char → List Char → Bool
  | [], pat => isPrefixL pat []
  | c :: rest, pat => isPrefixL pat (c :: rest) || containsL rest pat

/-- The zero-width `\b` test on the character left of the current
position. -/
def boundaryOk : Option Char → Bool
  | none => true
  | some c => !(isWordChar c)

/-- `\bw\b` matches exactly at the head of `s`, `prev` being the character
to the left. -/
def wordHere (prev : Option Char) (s w : List Char) : Bool :=
  isPrefixL w s && boundaryOk prev &&
    (match s.drop w.length with
     | [] => true
     | c :: _ => !(isWordChar c))

/-- `.*\bw\b` anchored at the head of `s`: the word after a gap of
non-newline characters. -/
def wordAfterGap (prev : Option Char) : List Char → List Char → Bool
  | [], w => wordHere prev [] w
  | c :: rest, w => wordHere prev (c :: rest) w ||
      (c ≠ '\n' && wordAfterGap (some c) rest w)

/-- regex search of `\bw1\b.*\bw2\b`. -/
def wordPairAux (prev : Option Char) : List Char → List Char → List Char → Bool
  | [], _, _ => false
  | c :: rest, w1, w2 =>
    (wordHere prev (c :: rest) w1 &&
      wordAfterGap w1.getLast? ((c :: rest).drop w1.length) w2) ||
    wordPairAux (some c) rest w1 w2

/-- Search for `\bw1\b.*\bw2\b` in `s`. -/
def wordPairSearch (s w1 w2 : List Char) : Bool := wordPairAux none s w1 w2

/-- `.*p` anchored at the head of `s`: the literal after a gap of
non-newline characters. -/
def subAfterGap : List Char → List Char → Bool
  | [], p => isPrefixL p []
  | c :: rest, p => isPrefixL p (c :: rest) || (c ≠ '\n' && subAfterGap rest p)

/-- Search for the literal `p` followed (at `p`'s end) by whatever the
continuation `k` accepts. -/
def subThenAux (k : List Char → Bool) : List Char → List Char → Bool
  | [], _ => false
  | c :: rest, p =>
    (isPrefixL p (c :: rest) && k ((c :: rest).drop p.length)) ||
    subThenAux k rest p

/-- `\s*p` anchored at the head. -/
def wsStarThen (p : List Char) : List Char → Bool
  | [] => isPrefixL p []
  | c :: rest => isPrefixL p (c :: rest) || (isPyWs c && wsStarThen p rest)

/-- `\s+p` anchored at the head. -/
def wsPlusThen (p : List Char) : List Char → Bool
  | [] => false
  | c :: rest => isPyWs c && wsStarThen p rest

/-- `SQLI_PATTERNS.search`: `\bunion\b.*\bselect\b | \bselect\b.*\bfrom\b |
\bdrop\b.*\btable\b | \binsert\b.*\binto\b | \bdelete\b.*\bfrom\b | -- |
;-- | /\*.*\*/ | xp_ | 0x[0-9a-f]+`, case-insensitive. -/
def sqliSearch (s : String) : Bool :=
  let l := lowerChars s
  wordPairSearch l "union".data "select".data ||
  wordPairSearch l "select".data "from".data ||
  wordPairSearch l "drop".data "table".data ||
  wordPairSearch l "insert".data "into".data ||
  wordPairSearch l "delete".data "from".data ||
  containsL l "--".data ||
  containsL l ";--".data ||
  subThenAux (fun t => subAfterGap t "*/".data) l "/*".data ||
  containsL l "xp_".data ||
  subThenAux
    (fun t => match t with
      | [] => false
      | c :: _ => c.isDigit || ('a' ≤ c && c ≤ 'f')) l "0x".data

/-- `XSS_PATTERNS.search`: `<script | javascript: | onerror= | onload= |
<iframe | <svg.*onload | alert\s*\( | document\.cookie`, case-insensitive. -/
def xssSearch (s : String) : Bool :=
  let l := lowerChars s
  containsL l "<script".data ||
  containsL l "javascript:".data ||
  containsL l "onerror=".data ||
  containsL l "onload=".data ||
  containsL l "<iframe".data ||
  subThenAux (fun t => subAfterGap t "onload".data) l "<svg".data ||
  subThenAux (fun t => wsStarThen "(".data t) l "alert".data ||
  containsL l "document.cookie".data

/-- `PATH_TRAVERSAL.search`: `\.\./ | \.\.\\ | %2e%2e%2f | %252e%252e`,
case-insensitive. -/
def pathTraversalSearch (s : String) : Bool :=
  let l := lowerChars s
  containsL l "../".data ||
  containsL l "..\\".data ||
  containsL l "%2e%2e%2f".data ||
  containsL l "%252e%252e".data

/-- `CMD_INJECTION.search`: `\| | ; | && | \$\( | backtick | nc\s+- |
wget\s+http | curl\s+http`, case-insensitive. -/
def cmdInjectionSearch (s : String) : Bool :=
  let l := lowerChars s
  containsL l "|".data ||
  containsL l ";".data ||
  containsL l "&&".data ||
  containsL l "$(".data ||
  containsL l [Char.ofNat 96] ||
  subThenAux (fun t => wsPlusThen "-".data t) l "nc".data ||
  subThenAux (fun t => wsPlusThen "http".data t) l "wget".data ||
  subThenAux (fun t => wsPlusThen "http".data t) l "curl".data

/-- `inspect_payload(ip, path, query, body)` at clock value `now`:
checks `f"{path} {query} {body}"` against the four pattern classes in
priority order; on the first match records a payload hit
(`deque(maxlen=500)`), bans the IP via `_ban_ip`, and returns the attack
type; otherwise returns `None` and touches nothing. -/
def inspectPayload (s : EngineState) (ip path query body : String) (now : ℚ) :
    Option String × EngineState :=
  let combined := path ++ " " ++ query ++ " " ++ body
  let attack_type : Option String :=
    if sqliSearch combined then some "SQL_INJECTION"
    else if xssSearch combined then some "XSS"
    else if pathTraversalSearch combined then some "PATH_TRAVERSAL"
    else if cmdInjectionSearch combined then some "CMD_INJECTION"
    else none
  match attack_type with
  | some t =>
    (some t,
     (banIp { s with payload_hits := pushMaxlen 500 s.payload_hits ⟨ip, t, path, now⟩ }
       ip now).2)
  | none => (none, s)

/-! ## Rate limiter (`backend/rate_limiter.py`) -/

/-- Generic dictionary lookup (association list). -/
def alookup {κ α : Type} [DecidableEq κ] : List (κ × α) → κ → Option α
  | [], _ => none
  | (k, v) :: rest, key => if k = key then some v else alookup rest key

/-- Generic dictionary store (replace if present, insert otherwise). -/
def aset {κ α : Type} [DecidableEq κ] : List (κ × α) → κ → α → List (κ × α)
  | [], key, v => [(key, v)]
  | (k, w) :: rest, key, v =>
    if k = key then (k, v) :: rest else (k, w) :: aset rest key v

/-- `RATE_LIMITS.get(category, RATE_LIMITS["default"])` as
`(max_requests, window_seconds)`. -/
def rateConfig (category : String) : ℕ × ℕ :=
  if category = "login" then (5, 60)
  else if category = "register" then (3, 60)
  else if category = "forgot_password" then (2, 60)
  else if category = "api" then (120, 60)
  else if category = "ws" then (5, 60)
  else if category = "public" then (30, 60)
  else (60, 60)

/-- `ATTACK_MODE_MULTIPLIER = 0.4` (exact rational in the embedding; the
attack-mode branch is gated off in the verified scenarios). -/
def ATTACK_MODE_MULTIPLIER : ℚ := 2 / 5

/-- The fields of `SlidingWindowRateLimiter` that `check` touches. -/
structure RLState where
  requests : List ((String × String) × List ℚ)
  blocked_count : List (String × ℕ)
  total_blocked : ℕ
  attack_mode : Bool
  circuit_open : Bool
deriving DecidableEq, Repr

/-- The info dict returned by `check` (`retry_after` and `reason` are only
present on some paths, hence `Option`). -/
structure RLInfo where
  allowed : Bool
  category : String
  limit : ℕ
  remaining : ℕ
  retry_after : Option ℤ
  window : ℕ
  reason : Option String
deriving DecidableEq, Repr

/-- `check(ip, category)` at clock value `now`: circuit breaker, category
config, attack-mode tightening, repeat-offender penalty, sliding-window
filter, then admit or reject. -/
def check (s : RLState) (ip category : String) (now : ℚ) :
    (Bool × RLInfo) × RLState :=
  if s.circuit_open = true ∧ category ≠ "health" ∧ category ≠ "public" then
    ((false, ⟨false, category, 0, 0, some 30, 60, some "circuit_breaker"⟩), s)
  else
    let config := rateConfig category
    let window := config.2
    let maxReq0 := config.1
    let maxReq1 :=
      if s.attack_mode = true then max 1 (pyInt ((maxReq0 : ℚ) * ATTACK_MODE_MULTIPLIER)).toNat
      else maxReq0
    let offenses := (alookup s.blocked_count ip).getD 0
    let maxReq :=
      if offenses ≥ 10 then max 1 (maxReq1 / 4)
      else if offenses ≥ 5 then max 1 (maxReq1 / 2)
      else maxReq1
    let key := (ip, category)
    let kept := ((alookup s.requests key).getD []).filter (fun ts => now - ts < (window : ℚ))
    let current := kept.length
    if current ≥ maxReq then
      let oldest := kept.headD now
      let retry := pyInt ((window : ℚ) - (now - oldest)) + 1
      (((false : Bool), ⟨false, category, maxReq, 0, some retry, window, none⟩),
       { s with requests := aset s.requests key kept,
                blocked_count := aset s.blocked_count ip (offenses + 1),
                total_blocked := s.total_blocked + 1 })
    else
      ((true, ⟨true, category, maxReq, maxReq - current - 1, none, window, none⟩),
       { s with requests := aset s.requests key (kept ++ [now]) })

/-- Running `check` once per clock value in a list, threading the state;
collects the returned allow/deny booleans. -/
def runChecks : RLState → String → String → List ℚ → List Bool × RLState
  | s, _, _, [] => ([], s)
  | s, ip, cat, t :: ts =>
    let r := check s ip cat t
    let rest := runChecks r.2 ip cat ts
    (r.1.1 :: rest.1, rest.2)

/-! ## Threat score (`calculate_threat_score`) -/

/-- The level thresholds used both for the override branch and the final
score: `critical if ≥ 80 else high if ≥ 60 else medium if ≥ 40 else low`. -/
def levelOf (score : ℤ) : String :=
  if score ≥ 80 then "critical"
  else if score ≥ 60 then "high"
  else if score ≥ 40 then "medium"
  else "low"

/-- `calculate_threat_score()`.  The sensor reads and the time-filtered
counters are passed in: `cpu`/`mem` are the `psutil` percentages, `netOk`
tells whether `psutil.net_connections()` succeeded (its factor is skipped on
exception), `conns` its length, `banned = len(get_blocked_ips())`,
`recentHoney`/`recentPayload` the hits of the last hour.  Returns
`(threat_score, level)`. -/
def calculateThreatScore (killSwitch : Bool) (override : Option ℤ)
    (cpu mem : ℚ) (netOk : Bool) (conns banned recentHoney recentPayload : ℕ) :
    ℤ × String :=
  if killSwitch then (100, "critical")
  else
    match override with
    | some sc => (sc, levelOf sc)
    | none =>
      let cpuScore : ℚ := min cpu 100
      let memScore : ℚ := min mem 100
      let connScore : ℚ := min ((conns : ℚ) / 5) 100
      let banScore : ℚ := min ((banned : ℚ) * 10) 100
      let honeyScore : ℚ := min ((recentHoney : ℚ) * 5) 100
      let payloadScore : ℚ := min ((recentPayload : ℚ) * 10) 100
      let weighted0 : ℚ := cpuScore * 15 + memScore * 15
      let weighted1 : ℚ := if netOk then weighted0 + connScore * 20 else weighted0
      let weighted : ℚ := weighted1 + banScore * 20 + honeyScore * 15 + payloadScore * 15
      let totalWeight : ℚ := if netOk then 15 + 15 + 20 + 20 + 15 + 15 else 15 + 15 + 20 + 15 + 15
      let final0 : ℤ := if totalWeight = 0 then 0 else pyInt (weighted / totalWeight)
      let final : ℤ := min final0 100
      (final, levelOf final)

/-- The score formula exactly as the spec sentence states it:
`round(Σ(factor_score×weight) / Σ(weight))`, every factor present, clamped
to `[0, 100]`, same level thresholds. -/
def threatScoreClaim (cpu mem : ℚ) (conns banned recentHoney recentPayload : ℕ) :
    ℤ × String :=
  let weighted : ℚ := 15 * min cpu 100 + 15 * min mem 100 +
    20 * min ((conns : ℚ) / 5) 100 + 20 * min (10 * (banned : ℚ)) 100 +
    15 * min (5 * (recentHoney : ℚ)) 100 + 15 * min (10 * (recentPayload : ℚ)) 100
  let f : ℤ := min (max (round (weighted / 100)) 0) 100
  (f, levelOf f)

/-- The spec formula amended to what the code computes: `int()` truncation
(= floor of the nonnegative average) instead of `round`. -/
def threatScoreAmended (cpu mem : ℚ) (conns banned recentHoney recentPayload : ℕ) :
    ℤ × String :=
  let weighted : ℚ := 15 * min cpu 100 + 15 * min mem 100 +
    20 * min ((conns : ℚ) / 5) 100 + 20 * min (10 * (banned : ℚ)) 100 +
    15 * min (5 * (recentHoney : ℚ)) 100 + 15 * min (10 * (recentPayload : ℚ)) 100
  let f : ℤ := min (max ⌊weighted / 100⌋ 0) 100
  (f, levelOf f)

/-! ## Anomaly detection (`backend/anomaly_detection.py`)

Metric values are exact rationals.  `_calculate_stats` returns
`(mean, std)` in the source; the embedding carries `(mean, variance)` and
`zExceeds` encodes the comparison `z_score > threshold` (with
`z = |value - mean| / sqrt variance`, and `z = 0` when the std is zero)
without square roots: for a nonnegative threshold `t` and positive
variance, `|v - m| / sqrt var > t  ↔  (v - m)² > t² · var`. -/

/-- State of `AnomalyDetector`. -/
structure DetectorState where
  window_size : ℕ
  z_threshold : ℚ
  min_samples : ℕ
  cpu_history : List ℚ
  memory_history : List ℚ
  disk_history : List ℚ
  anomalies : List (String × String)
  max_anomalies : ℕ
  streak_cpu : ℕ
  streak_memory : ℕ
  streak_disk : ℕ
  streak_threshold : ℕ
  total_checks : ℕ
  total_anomalies_detected : ℕ
deriving DecidableEq, Repr

/-- `AnomalyDetector()` with the default parameters
(`window_size=120, z_threshold=2.5, min_samples=20`, streak threshold 3,
at most 200 stored anomalies). -/
def DetectorState.init : DetectorState :=
  ⟨120, 5 / 2, 20, [], [], [], [], 200, 0, 0, 0, 3, 0, 0⟩

/-- `_calculate_stats`: `(0, 0)` on fewer than two samples, else the mean
and the sample variance (`/(n-1)`); the variance stands in for the std. -/
def calcStats (data : List ℚ) : ℚ × ℚ :=
  if data.length < 2 then (0, 0)
  else
    let n : ℚ := data.length
    let mean := data.sum / n
    let variance := (data.map (fun x => (x - mean) ^ 2)).sum / (n - 1)
    (mean, variance)

/-- `_calculate_z_score(value, mean, std) > t`, expressed on the variance:
`0 > t` when the std is zero, else `|value - mean| / sqrt variance > t`. -/
def zExceeds (value mean variance t : ℚ) : Bool :=
  if variance = 0 then decide ((0 : ℚ) > t)
  else if t < 0 then true
  else decide ((value - mean) ^ 2 > t ^ 2 * variance)

/-- `analyze(cpu, memory, disk)`: append to the sliding windows, stay in
learning mode below `min_samples`, otherwise run the three z-score checks,
update the per-metric streaks, and emit one `(metric, severity)` anomaly
per metric whose streak has reached the threshold; stored anomalies are
truncated to the most recent `max_anomalies`.  (The EMA values only feed
the returned stats dict and are not part of the anomaly decision.) -/
def analyze (st : DetectorState) (cpu memory disk : ℚ) :
    DetectorState × List (String × String) :=
  let st1 : DetectorState :=
    { st with total_checks := st.total_checks + 1,
              cpu_history := pushMaxlen st.window_size st.cpu_history cpu,
              memory_history := pushMaxlen st.window_size st.memory_history memory,
              disk_history := pushMaxlen st.window_size st.disk_history disk }
  if st1.cpu_history.length < st1.min_samples then (st1, [])
  else
    let cs := calcStats st1.cpu_history
    let ms := calcStats st1.memory_history
    let ds := calcStats st1.disk_history
    let cpuHit := zExceeds cpu cs.1 cs.2 st1.z_threshold
    let memHit := zExceeds memory ms.1 ms.2 st1.z_threshold
    let diskHit := zExceeds disk ds.1 ds.2 (st1.z_threshold * (3 / 2))
    let cpuStreak := if cpuHit then st1.streak_cpu + 1 else 0
    let memStreak := if memHit then st1.streak_memory + 1 else 0
    let diskStreak := if diskHit then st1.streak_disk + 1 else 0
    let cpuFound : List (String × String) :=
      if cpuHit ∧ st1.streak_threshold ≤ cpuStreak then
        [("CPU", if cpu > 90 then "critical" else "high")] else []
    let memFound : List (String × String) :=
      if memHit ∧ st1.streak_threshold ≤ memStreak then
        [("Memory", if memory > 90 then "critical" else "high")] else []
    let diskFound : List (String × String) :=
      if diskHit ∧ st1.streak_threshold ≤ diskStreak then
        [("Disk", if disk > 90 then "critical" else "medium")] else []
    let found := cpuFound ++ memFound ++ diskFound
    let anoms0 := st1.anomalies ++ found
    let anoms :=
      if st1.max_anomalies < anoms0.length then
        anoms0.drop (anoms0.length - st1.max_anomalies)
      else anoms0
    ({ st1 with streak_cpu := cpuStreak, streak_memory := memStreak,
                streak_disk := diskStreak, anomalies := anoms,
                total_anomalies_detected := st1.total_anomalies_detected + found.length },
     found)

/-- Feeding a list of `(cpu, memory, disk)` samples through `analyze`,
collecting every emitted anomaly in order. -/
def analyzeRun : DetectorState → List (ℚ × ℚ × ℚ) → DetectorState × List (String × String)
  | st, [] => (st, [])
  | st, (c, m, d) :: rest =>
    let r := analyze st c m d
    let rr := analyzeRun r.1 rest
    (rr.1, r.2 ++ rr.2)

/-- The stable baseline used in the C5 scenarios: `2k+1` values alternating
49, 51 and ending in 50 — mean 50, sample std 1 (so the outlier value 60 is
ten standard deviations from the mean), and no value of the sequence itself
breaches the z-threshold while it is fed. -/
def stableSamples (k : ℕ) : List ℚ :=
  (List.replicate k ([49, 51] : List ℚ)).flatten ++ [50]

/-- Feed each plain value to all three metrics at once. -/
def triples (vs : List ℚ) : List (ℚ × ℚ × ℚ) := vs.map (fun v => (v, v, v))

/-! ## Self-healing engine (`backend/self_healing.py`) -/

/-- The counters of `SelfHealingEngine` that `heal`'s control flow reads and
writes (`healed_count`, `last_heal_time` and the memory history are driven
by the external service commands and are not part of the verified logic). -/
structure HealState where
  failure_count : ℕ
  consecutive_fails : ℕ
deriving DecidableEq, Repr

/-- `heal(reason, escalate)` with the outcomes of the successive
`check_api_health()` post-heal verifications supplied as an oracle trace
(one boolean consumed per invocation; the service restarts themselves are
external effects).  Returns the new state, the unconsumed trace, and the
number of escalated (`escalate=True`) heal calls triggered from within this
invocation.  Mirrors the source: on failed verification the counter is
incremented, and once it reaches 3 an escalated heal is invoked recursively,
after which the counter is reset. -/
def heal : HealState → Bool → List Bool → HealState × List Bool × ℕ
  | s, _, [] => ({ s with failure_count := s.failure_count + 1 }, [], 0)
  | s, _, v :: rest =>
    let s1 : HealState := { s with failure_count := s.failure_count + 1 }
    if v then
      ({ s1 with consecutive_fails := 0 }, rest, 0)
    else
      let c := s1.consecutive_fails + 1
      if 3 ≤ c then
        let r := heal { s1 with consecutive_fails := c } true rest
        ({ r.1 with consecutive_fails := 0 }, r.2.1, r.2.2 + 1)
      else
        ({ s1 with consecutive_fails := c }, rest, 0)

end Brahmastra

namespace Brahmastra

/-! ### Basic association-list lemmas -/

theorem lookupRec_setRec_self (m : List (String × FailedLoginRecord))
    (ip : String) (r : FailedLoginRecord) :
    lookupRec (setRec m ip r) ip = some r := by
  induction m with
  | nil => simp [setRec, lookupRec]
  | cons hd tl ih =>
    obtain ⟨k, v⟩ := hd
    by_cases h : k = ip
    · simp [setRec, lookupRec, h]
    · simp [setRec, lookupRec, h, ih]

theorem lookupRec_setRec_other (m : List (String × FailedLoginRecord))
    (ip ip' : String) (r : FailedLoginRecord) (h : ip' ≠ ip) :
    lookupRec (setRec m ip r) ip' = lookupRec m ip' := by
  induction m with
  | nil => simp [setRec, lookupRec, Ne.symm h]
  | cons hd tl ih =>
    obtain ⟨k, v⟩ := hd
    by_cases hk : k = ip
    · subst hk
      simp [setRec, lookupRec, Ne.symm h]
    · simp [setRec, lookupRec, hk, ih]

theorem setRec_setRec_self (m : List (String × FailedLoginRecord))
    (ip : String) (r r' : FailedLoginRecord) :
    setRec (setRec m ip r) ip r' = setRec m ip r' := by
  induction m with
  | nil => simp [setRec]
  | cons hd tl ih =>
    obtain ⟨k, v⟩ := hd
    by_cases h : k = ip
    · simp [setRec, h]
    · simp [setRec, h, ih]

theorem getRec_setRec_self (m : List (String × FailedLoginRecord))
    (ip : String) (r : FailedLoginRecord) :
    getRec (setRec m ip r) ip = r := by
  simp [getRec, lookupRec_setRec_self]

theorem getRec_setRec_other (m : List (String × FailedLoginRecord))
    (ip ip' : String) (r : FailedLoginRecord) (h : ip' ≠ ip) :
    getRec (setRec m ip r) ip' = getRec m ip' := by
  simp [getRec, lookupRec_setRec_other _ _ _ _ h]

theorem pushMaxlen_small {α : Type} (m : ℕ) (xs : List α) (x : α)
    (h : xs.length + 1 ≤ m) :
    pushMaxlen m xs x = xs ++ [x] := by
  have h0 : xs.length + 1 - m = 0 := by omega
  simp [pushMaxlen, h0]

theorem pruneWindow_keep (now t : ℚ) (ts : List ℚ)
    (h : ¬ now - t > FAILED_LOGIN_WINDOW) :
    pruneWindow now (t :: ts) = t :: ts := by
  simp [pruneWindow, h]

/-! ### C2 — escalating ban ladder -/

theorem BAN_DURATIONS_getD_pos (i : ℕ) (h : i ≤ 3) :
    (0 : ℚ) < BAN_DURATIONS.getD i 0 := by
  interval_cases i <;> norm_num [BAN_DURATIONS]

/-- C2: every ban event, at *any* offense count, picks its duration from
the ladder `[3600, 21600, 86400, 604800]` at index `min(offense_count, 3)`,
increments `offense_count` and sets `ban_until = now + duration` — the four
rungs evaluate to 3600/21600/86400/604800, the last one capped for every
offense count `≥ 3`; whenever a second ban lands after the first expires,
the new `ban_until` is strictly larger; in particular a second ban on a
first-offense IP after its 3600 s ban expires uses `21600` seconds. -/
theorem banIp_ladder_escalation (s : EngineState) (ip : String) (now t1 t2 : ℚ) :
    (banIp s ip now).1 =
      BAN_DURATIONS.getD (min (getRec s.failed_logins ip).offense_count 3) 0 ∧
    (getRec (banIp s ip now).2.failed_logins ip).offense_count =
      (getRec s.failed_logins ip).offense_count + 1 ∧
    (getRec (banIp s ip now).2.failed_logins ip).ban_until =
      some (now + (banIp s ip now).1) ∧
    ((getRec s.failed_logins ip).offense_count = 0 → (banIp s ip now).1 = 3600) ∧
    ((getRec s.failed_logins ip).offense_count = 1 → (banIp s ip now).1 = 21600) ∧
    ((getRec s.failed_logins ip).offense_count = 2 → (banIp s ip now).1 = 86400) ∧
    (3 ≤ (getRec s.failed_logins ip).offense_count → (banIp s ip now).1 = 604800) ∧
    (t1 + (banIp s ip t1).1 ≤ t2 →
      (getRec (banIp s ip t1).2.failed_logins ip).ban_until =
        some (t1 + (banIp s ip t1).1) ∧
      (getRec (banIp (banIp s ip t1).2 ip t2).2.failed_logins ip).ban_until =
        some (t2 + (banIp (banIp s ip t1).2 ip t2).1) ∧
      t1 + (banIp s ip t1).1 < t2 + (banIp (banIp s ip t1).2 ip t2).1) ∧
    ((getRec s.failed_logins ip).offense_count = 0 → t1 + 3600 ≤ t2 →
      (banIp s ip t1).1 = 3600 ∧ (banIp (banIp s ip t1).2 ip t2).1 = 21600) := by
  refine ⟨?_, ?_, ?_, ?_, ?_, ?_, ?_, ?_, ?_⟩
  · simp [banIp, BAN_DURATIONS]
  · simp [banIp, getRec_setRec_self]
  · simp [banIp, getRec_setRec_self]
  · intro h
    simp [banIp, h, BAN_DURATIONS]
  · intro h
    simp [banIp, h, BAN_DURATIONS]
  · intro h
    simp [banIp, h, BAN_DURATIONS]
  · intro h
    simp [banIp, BAN_DURATIONS, min_eq_right h]
  · intro hle
    refine ⟨?_, ?_, ?_⟩
    · simp [banIp, getRec_setRec_self]
    · simp [banIp, getRec_setRec_self]
    · have he : (banIp (banIp s ip t1).2 ip t2).1 =
          BAN_DURATIONS.getD (min ((getRec s.failed_logins ip).offense_count + 1) 3) 0 := by
        simp [banIp, getRec_setRec_self, BAN_DURATIONS]
      have hpos : (0 : ℚ) < (banIp (banIp s ip t1).2 ip t2).1 := by
        rw [he]
        exact BAN_DURATIONS_getD_pos _ (by omega)
      linarith
  · intro h0 hexp
    constructor
    · simp [banIp, h0, BAN_DURATIONS]
    · simp [banIp, getRec_setRec_self, h0, BAN_DURATIONS]

/-- Witness for `banIp_ladder_escalation`: rung 2, the ≥ 3 cap (offense
count 7), and the 3600-then-21600 second-ban scenario from a fresh state,
with its strict `ban_until` increase. -/
theorem banIp_ladder_escalation_witness :
    (banIp ⟨[("9.9.9.9", ⟨[], none, 2⟩)], [], false⟩ "9.9.9.9" 0).1 = 86400 ∧
    (banIp ⟨[("9.9.9.9", ⟨[], none, 7⟩)], [], false⟩ "9.9.9.9" 0).1 = 604800 ∧
    (banIp EngineState.fresh "9.9.9.9" 0).1 = 3600 ∧
    (banIp (banIp EngineState.fresh "9.9.9.9" 0).2 "9.9.9.9" 3600).1 = 21600 ∧
    0 + (banIp EngineState.fresh "9.9.9.9" 0).1 <
      3600 + (banIp (banIp EngineState.fresh "9.9.9.9" 0).2 "9.9.9.9" 3600).1 := by
  have h2 := banIp_ladder_escalation ⟨[("9.9.9.9", ⟨[], none, 2⟩)], [], false⟩
    "9.9.9.9" 0 0 3600
  have h7 := banIp_ladder_escalation ⟨[("9.9.9.9", ⟨[], none, 7⟩)], [], false⟩
    "9.9.9.9" 0 0 3600
  have h0 := banIp_ladder_escalation EngineState.fresh "9.9.9.9" 0 0 3600
  obtain ⟨hd1, hd2⟩ := h0.2.2.2.2.2.2.2.2 (by decide) (by norm_num)
  have hinc := h0.2.2.2.2.2.2.2.1 (by rw [hd1]; norm_num)
  exact ⟨h2.2.2.2.2.2.1 (by decide), h7.2.2.2.2.2.2.1 (by decide), hd1, hd2, hinc.2.2⟩

/-! ### C1 — five failed logins inside the rolling window ban the IP -/

/-- C1: for an IP with no prior record, five failed logins whose clock
values all lie within the 300-second rolling window return
`false, false, false, false, true`; immediately afterwards `is_ip_banned`
reports `(true, 3600)` (the first ladder duration) and the record holds all
five timestamps, `ban_until = t5 + 3600` and `offense_count = 1`. -/
theorem recordFailedLogin_five_bans (s : EngineState) (ip : String)
    (t1 t2 t3 t4 t5 : ℚ)
    (h0 : lookupRec s.failed_logins ip = none)
    (h12 : t1 ≤ t2) (h23 : t2 ≤ t3) (h34 : t3 ≤ t4) (h45 : t4 ≤ t5)
    (hw : t5 - t1 ≤ FAILED_LOGIN_WINDOW) :
    (runFailedLogins s ip [t1, t2, t3, t4, t5]).1 =
      [false, false, false, false, true] ∧
    getRec (runFailedLogins s ip [t1, t2, t3, t4, t5]).2.failed_logins ip =
      ⟨[t1, t2, t3, t4, t5], some (t5 + 3600), 1⟩ ∧
    (isIpBanned (runFailedLogins s ip [t1, t2, t3, t4, t5]).2 ip t5).1 =
      (true, some 3600) := by
  have hW : FAILED_LOGIN_WINDOW = 300 := rfl
  have hp2 : ¬ t2 - t1 > FAILED_LOGIN_WINDOW := by rw [hW]; intro hc; linarith
  have hp3 : ¬ t3 - t1 > FAILED_LOGIN_WINDOW := by rw [hW]; intro hc; linarith
  have hp4 : ¬ t4 - t1 > FAILED_LOGIN_WINDOW := by rw [hW]; intro hc; linarith
  have hp5 : ¬ t5 - t1 > FAILED_LOGIN_WINDOW := by rw [hW]; intro hc; linarith
  have e1 : recordFailedLogin s ip t1 =
      (false, { s with failed_logins := setRec s.failed_logins ip ⟨[t1], none, 0⟩ }) := by
    simp [recordFailedLogin, getRec, h0, FailedLoginRecord.init, pruneWindow,
      pushMaxlen, MAX_FAILED_LOGINS]
  have e2 : recordFailedLogin
      { s with failed_logins := setRec s.failed_logins ip ⟨[t1], none, 0⟩ } ip t2 =
      (false, { s with failed_logins := setRec s.failed_logins ip ⟨[t1, t2], none, 0⟩ }) := by
    simp [recordFailedLogin, getRec, lookupRec_setRec_self, pruneWindow, hp2,
      pushMaxlen, MAX_FAILED_LOGINS, setRec_setRec_self]
  have e3 : recordFailedLogin
      { s with failed_logins := setRec s.failed_logins ip ⟨[t1, t2], none, 0⟩ } ip t3 =
      (false, { s with failed_logins := setRec s.failed_logins ip ⟨[t1, t2, t3], none, 0⟩ }) := by
    simp [recordFailedLogin, getRec, lookupRec_setRec_self, pruneWindow, hp3,
      pushMaxlen, MAX_FAILED_LOGINS, setRec_setRec_self]
  have e4 : recordFailedLogin
      { s with failed_logins := setRec s.failed_logins ip ⟨[t1, t2, t3], none, 0⟩ } ip t4 =
      (false, { s with failed_logins := setRec s.failed_logins ip ⟨[t1, t2, t3, t4], none, 0⟩ }) := by
    simp [recordFailedLogin, getRec, lookupRec_setRec_self, pruneWindow, hp4,
      pushMaxlen, MAX_FAILED_LOGINS, setRec_setRec_self]
  have e5 : recordFailedLogin
      { s with failed_logins := setRec s.failed_logins ip ⟨[t1, t2, t3, t4], none, 0⟩ } ip t5 =
      (true, { s with failed_logins := setRec s.failed_logins ip ⟨[t1, t2, t3, t4, t5], some (t5 + 3600), 1⟩ }) := by
    simp [recordFailedLogin, getRec, lookupRec_setRec_self, pruneWindow, hp5,
      pushMaxlen, MAX_FAILED_LOGINS, banIp, BAN_DURATIONS, setRec_setRec_self]
  have hrun : runFailedLogins s ip [t1, t2, t3, t4, t5] =
      ([false, false, false, false, true],
       { s with failed_logins := setRec s.failed_logins ip ⟨[t1, t2, t3, t4, t5], some (t5 + 3600), 1⟩ }) := by
    simp [runFailedLogins, e1, e2, e3, e4, e5]
  rw [hrun]
  refine ⟨rfl, getRec_setRec_self _ _ _, ?_⟩
  have hlt : t5 < t5 + 3600 := by linarith
  simp [isIpBanned, lookupRec_setRec_self, hlt, pyInt]

/-- Witness for `recordFailedLogin_five_bans` at concrete clock values. -/
theorem recordFailedLogin_five_bans_witness :
    (runFailedLogins EngineState.fresh "5.6.7.8" [0, 1, 2, 3, 4]).1 =
      [false, false, false, false, true] ∧
    (isIpBanned (runFailedLogins EngineState.fresh "5.6.7.8" [0, 1, 2, 3, 4]).2
        "5.6.7.8" 4).1 = (true, some 3600) := by
  have h := recordFailedLogin_five_bans EngineState.fresh "5.6.7.8" 0 1 2 3 4
    (by decide) (by norm_num) (by norm_num) (by norm_num) (by norm_num)
    (by norm_num [FAILED_LOGIN_WINDOW])
  exact ⟨h.1, h.2.2⟩

/-! ### C9 — successful login clears timestamps only -/

/-- C9: `record_successful_login(ip)` clears only that IP's failed-attempt
timestamps; `ban_until` and `offense_count` are unchanged, every other IP's
record is untouched, and `is_ip_banned` returns the same answer as before,
so a banned IP stays banned until expiry or manual unban. -/
theorem recordSuccessfulLogin_frame (s : EngineState) (ip ip' : String) (now : ℚ)
    (h : ip' ≠ ip) :
    (getRec (recordSuccessfulLogin s ip).failed_logins ip).timestamps = [] ∧
    (getRec (recordSuccessfulLogin s ip).failed_logins ip).ban_until =
      (getRec s.failed_logins ip).ban_until ∧
    (getRec (recordSuccessfulLogin s ip).failed_logins ip).offense_count =
      (getRec s.failed_logins ip).offense_count ∧
    lookupRec (recordSuccessfulLogin s ip).failed_logins ip' =
      lookupRec s.failed_logins ip' ∧
    (recordSuccessfulLogin s ip).payload_hits = s.payload_hits ∧
    (isIpBanned (recordSuccessfulLogin s ip) ip now).1 =
      (isIpBanned s ip now).1 := by
  cases hl : lookupRec s.failed_logins ip with
  | none =>
    simp [recordSuccessfulLogin, hl, getRec, FailedLoginRecord.init]
  | some r =>
    refine ⟨?_, ?_, ?_, ?_, ?_, ?_⟩
    · simp [recordSuccessfulLogin, hl, getRec_setRec_self]
    · simp [recordSuccessfulLogin, hl, getRec, lookupRec_setRec_self]
    · simp [recordSuccessfulLogin, hl, getRec, lookupRec_setRec_self]
    · simp [recordSuccessfulLogin, hl, lookupRec_setRec_other _ _ _ _ h]
    · simp [recordSuccessfulLogin, hl]
    · cases hb : r.ban_until with
      | none => simp [isIpBanned, recordSuccessfulLogin, hl, lookupRec_setRec_self, hb]
      | some bu =>
        by_cases hn : now < bu
        · simp [isIpBanned, recordSuccessfulLogin, hl, lookupRec_setRec_self, hb, hn]
        · simp [isIpBanned, recordSuccessfulLogin, hl, lookupRec_setRec_self, hb, hn]

/-! ### C8 — ban persistence round-trip -/

theorem lookupRec_mem (m : List (String × FailedLoginRecord)) (ip : String)
    (r : FailedLoginRecord) (h : lookupRec m ip = some r) : (ip, r) ∈ m := by
  induction m with
  | nil => simp [lookupRec] at h
  | cons hd tl ih =>
    obtain ⟨k, v⟩ := hd
    by_cases hk : k = ip
    · subst hk
      simp [lookupRec] at h
      simp [h]
    · simp [lookupRec, hk] at h
      exact List.mem_cons_of_mem _ (ih h)

theorem lookupRec_eq_of_mem_nodup (m : List (String × FailedLoginRecord))
    (ip : String) (r : FailedLoginRecord) (hn : (m.map Prod.fst).Nodup)
    (h : (ip, r) ∈ m) : lookupRec m ip = some r := by
  induction m with
  | nil => simp at h
  | cons hd tl ih =>
    obtain ⟨k, v⟩ := hd
    simp only [List.map_cons, List.nodup_cons] at hn
    rcases List.mem_cons.mp h with he | ht
    · obtain ⟨h1, h2⟩ := Prod.mk.injEq .. ▸ he
      simp [lookupRec, h1.symm, h2]
    · have hk : k ≠ ip := by
        intro hk
        exact hn.1 (hk ▸ (List.mem_map.mpr ⟨(ip, r), ht, rfl⟩))
      simp [lookupRec, hk]
      exact ih hn.2 ht

theorem saveEntry_key (now : ℚ) (kv : String × FailedLoginRecord)
    (r : String × ℚ × ℕ) (h : saveEntry now kv = some r) : r.1 = kv.1 := by
  unfold saveEntry at h
  cases hb : kv.2.ban_until with
  | none => simp [hb] at h
  | some bu =>
    simp only [hb] at h
    by_cases hc : bu ≠ 0 ∧ bu > now
    · simp [hc] at h
      simp [← h]
    · simp [hc] at h

theorem saveBans_keys_sublist (m : List (String × FailedLoginRecord)) (now : ℚ) :
    ((m.filterMap (saveEntry now)).map Prod.fst).Sublist (m.map Prod.fst) := by
  induction m with
  | nil => simp
  | cons hd tl ih =>
    cases h : saveEntry now hd with
    | none => simpa [h] using ih.cons hd.1
    | some r =>
      have hk := saveEntry_key now hd r h
      simpa [h, hk] using ih.cons₂ hd.1

theorem mem_saveBans_of (s : EngineState) (ts : ℚ) (ip : String)
    (r : FailedLoginRecord) (bu : ℚ) (hl : (ip, r) ∈ s.failed_logins)
    (hbu : r.ban_until = some bu) (hne : bu ≠ 0) (hgt : bu > ts) :
    (ip, bu, r.offense_count) ∈ saveBans s ts :=
  List.mem_filterMap.mpr ⟨(ip, r), hl, by simp [saveEntry, hbu, hne, hgt]⟩

theorem of_mem_saveBans (s : EngineState) (ts : ℚ) (ip : String) (bu : ℚ)
    (oc : ℕ) (hmem : (ip, bu, oc) ∈ saveBans s ts) :
    ∃ r : FailedLoginRecord, (ip, r) ∈ s.failed_logins ∧
      r.ban_until = some bu ∧ oc = r.offense_count ∧ bu ≠ 0 ∧ bu > ts := by
  obtain ⟨kv, hkv, hf⟩ := List.mem_filterMap.mp hmem
  obtain ⟨k, r⟩ := kv
  unfold saveEntry at hf
  cases hb : r.ban_until with
  | none => simp [hb] at hf
  | some bu' =>
    simp only [hb] at hf
    by_cases hc : bu' ≠ 0 ∧ bu' > ts
    · simp only [if_pos hc, Option.some.injEq, Prod.mk.injEq] at hf
      obtain ⟨hk, hbu', hoc⟩ := hf
      exact ⟨r, hk ▸ hkv, hbu' ▸ hb, hoc.symm, hbu' ▸ hc.1, hbu' ▸ hc.2⟩
    · simp [hc] at hf

theorem lookupRec_loadBans_keep (snap : List (String × ℚ × ℕ)) (s : EngineState)
    (now : ℚ) (ip : String)
    (h : ∀ bu oc, (ip, bu, oc) ∈ snap → ¬ bu > now) :
    lookupRec (loadBans s snap now).failed_logins ip = lookupRec s.failed_logins ip := by
  induction snap generalizing s with
  | nil => rfl
  | cons hd tl ih =>
    obtain ⟨k, bu, oc⟩ := hd
    by_cases hb : bu > now
    · have hk : k ≠ ip := by
        intro he
        exact h bu oc (by simp [he]) hb
      rw [show loadBans s ((k, bu, oc) :: tl) now =
          loadBans (loadEntry s k bu oc) tl now from by simp [loadBans, hb]]
      rw [ih _ (fun bu' oc' hm => h bu' oc' (List.mem_cons_of_mem _ hm))]
      exact lookupRec_setRec_other _ _ _ _ (Ne.symm hk)
    · rw [show loadBans s ((k, bu, oc) :: tl) now = loadBans s tl now from by
        simp [loadBans, hb]]
      exact ih _ (fun bu' oc' hm => h bu' oc' (List.mem_cons_of_mem _ hm))

theorem lookupRec_loadBans_mem (snap : List (String × ℚ × ℕ)) (s : EngineState)
    (now : ℚ) (ip : String) (bu : ℚ) (oc : ℕ)
    (hnodup : (snap.map Prod.fst).Nodup) (hmem : (ip, bu, oc) ∈ snap)
    (hb : bu > now) :
    lookupRec (loadBans s snap now).failed_logins ip =
      some { getRec s.failed_logins ip with ban_until := some bu, offense_count := oc } := by
  induction snap generalizing s with
  | nil => simp at hmem
  | cons hd tl ih =>
    obtain ⟨k, bu', oc'⟩ := hd
    simp only [List.map_cons, List.nodup_cons] at hnodup
    rcases List.mem_cons.mp hmem with he | ht
    · obtain ⟨h1, h2, h3⟩ : ip = k ∧ bu = bu' ∧ oc = oc' := by
        simpa [Prod.ext_iff] using he
      subst h1; subst h2; subst h3
      rw [show loadBans s ((ip, bu, oc) :: tl) now =
          loadBans (loadEntry s ip bu oc) tl now from by simp [loadBans, hb]]
      have hout : ∀ bu'' oc'', (ip, bu'', oc'') ∈ tl → ¬ bu'' > now := by
        intro bu'' oc'' hm _
        exact hnodup.1 (List.mem_map.mpr ⟨(ip, bu'', oc''), hm, rfl⟩)
      rw [lookupRec_loadBans_keep tl _ now ip hout]
      exact lookupRec_setRec_self _ _ _
    · have hk : k ≠ ip := by
        intro hke
        exact hnodup.1 (hke ▸ List.mem_map.mpr ⟨(ip, bu, oc), ht, rfl⟩)
      by_cases hb' : bu' > now
      · rw [show loadBans s ((k, bu', oc') :: tl) now =
            loadBans (loadEntry s k bu' oc') tl now from by simp [loadBans, hb']]
        rw [ih _ hnodup.2 ht]
        have hg : getRec (loadEntry s k bu' oc').failed_logins ip =
            getRec s.failed_logins ip := getRec_setRec_other _ _ _ _ (Ne.symm hk)
        rw [hg]
      · rw [show loadBans s ((k, bu', oc') :: tl) now = loadBans s tl now from by
          simp [loadBans, hb']]
        exact ih _ hnodup.2 ht

/-- C8: writing the ban snapshot at time `ts` and loading it at time
`tl ≥ ts` into a fresh engine yields identical `is_ip_banned` answers at any
query time `tq ≥ tl` for every IP that is still banned at `tq`, while every
entry whose ban had already expired at load time is dropped, so the fresh
instance reports it not banned. -/
theorem persistence_roundtrip (s : EngineState) (ip : String) (ts tl tq : ℚ)
    (hnodup : (s.failed_logins.map Prod.fst).Nodup)
    (h0 : 0 ≤ ts) (hstl : ts ≤ tl) (htlq : tl ≤ tq) :
    ((isIpBanned s ip tq).1.1 = true →
      (isIpBanned (loadBans EngineState.fresh (saveBans s ts) tl) ip tq).1 =
        (isIpBanned s ip tq).1) ∧
    (∀ r : FailedLoginRecord, ∀ bu : ℚ,
      lookupRec s.failed_logins ip = some r → r.ban_until = some bu → ¬ bu > tl →
      (isIpBanned (loadBans EngineState.fresh (saveBans s ts) tl) ip tq).1 =
        (false, none)) := by
  have hsnodup : ((saveBans s ts).map Prod.fst).Nodup :=
    (saveBans_keys_sublist s.failed_logins ts).nodup hnodup
  constructor
  · intro hb
    cases hl : lookupRec s.failed_logins ip with
    | none => simp [isIpBanned, hl] at hb
    | some r =>
      cases hbu : r.ban_until with
      | none => simp [isIpBanned, hl, hbu] at hb
      | some bu =>
        by_cases htq : tq < bu
        · have hne : bu ≠ 0 := by
            intro he
            rw [he] at htq
            linarith
          have hmem : (ip, bu, r.offense_count) ∈ saveBans s ts :=
            mem_saveBans_of s ts ip r bu (lookupRec_mem _ _ _ hl) hbu hne (by linarith)
          have hload := lookupRec_loadBans_mem (saveBans s ts) EngineState.fresh tl
            ip bu r.offense_count hsnodup hmem (by linarith)
          simp [isIpBanned, hl, hbu, htq, hload]
        · simp [isIpBanned, hl, hbu, htq] at hb
  · intro r bu hl hbu hble
    have hkeep : ∀ bu' oc', (ip, bu', oc') ∈ saveBans s ts → ¬ bu' > tl := by
      intro bu' oc' hm
      obtain ⟨r', hmem', hbu', _, _, _⟩ := of_mem_saveBans s ts ip bu' oc' hm
      have : r' = r := by
        have := lookupRec_eq_of_mem_nodup _ _ _ hnodup hmem'
        rw [hl] at this
        exact (Option.some.injEq .. ▸ this).symm ▸ rfl
      subst this
      rw [hbu] at hbu'
      cases hbu'
      exact hble
    have hnone : lookupRec
        (loadBans EngineState.fresh (saveBans s ts) tl).failed_logins ip = none := by
      rw [lookupRec_loadBans_keep (saveBans s ts) EngineState.fresh tl ip hkeep]
      rfl
    simp [isIpBanned, hnone]

/-- Witness for `persistence_roundtrip` at a concrete two-IP state: IP
`"a"` still banned at query time, IP `"b"` expired before load time. -/
theorem persistence_roundtrip_witness :
    (isIpBanned (loadBans EngineState.fresh
        (saveBans ⟨[("a", ⟨[], some 1000, 2⟩), ("b", ⟨[], some 30, 1⟩)], [], false⟩ 10)
        35) "a" 40).1 =
      (isIpBanned (⟨[("a", ⟨[], some 1000, 2⟩), ("b", ⟨[], some 30, 1⟩)], [], false⟩ :
        EngineState) "a" 40).1 ∧
    (isIpBanned (loadBans EngineState.fresh
        (saveBans ⟨[("a", ⟨[], some 1000, 2⟩), ("b", ⟨[], some 30, 1⟩)], [], false⟩ 10)
        35) "b" 40).1 = (false, none) := by
  constructor
  · exact (persistence_roundtrip
      ⟨[("a", ⟨[], some 1000, 2⟩), ("b", ⟨[], some 30, 1⟩)], [], false⟩ "a" 10 35 40
      (by decide) (by norm_num) (by norm_num) (by norm_num)).1
      (by norm_num [isIpBanned, lookupRec])
  · exact (persistence_roundtrip
      ⟨[("a", ⟨[], some 1000, 2⟩), ("b", ⟨[], some 30, 1⟩)], [], false⟩ "b" 10 35 40
      (by decide) (by norm_num) (by norm_num) (by norm_num)).2
      ⟨[], some 30, 1⟩ 30 (by simp [lookupRec]) rfl (by norm_num)

/-- Witness for `recordSuccessfulLogin_frame` at a concrete banned state. -/
theorem recordSuccessfulLogin_frame_witness :
    (getRec (recordSuccessfulLogin
        ⟨[("1.1.1.1", ⟨[1, 2], some 100, 2⟩)], [], false⟩ "1.1.1.1").failed_logins
        "1.1.1.1").timestamps = [] ∧
    (isIpBanned (recordSuccessfulLogin
        ⟨[("1.1.1.1", ⟨[1, 2], some 100, 2⟩)], [], false⟩ "1.1.1.1") "1.1.1.1" 50).1 =
      (isIpBanned (⟨[("1.1.1.1", ⟨[1, 2], some 100, 2⟩)], [], false⟩ : EngineState)
        "1.1.1.1" 50).1 := by
  have h := recordSuccessfulLogin_frame
    ⟨[("1.1.1.1", ⟨[1, 2], some 100, 2⟩)], [], false⟩ "1.1.1.1" "2.2.2.2" 50
    (by decide)
  exact ⟨h.1, h.2.2.2.2.2⟩

/-! ### C4 — cascade-to-nuclear rule in `heal` -/

/-- C4 counterexample: starting with two prior consecutive failures, a third
failed verification raises the counter to 3 and triggers an escalated heal —
but because that escalated heal's own verification also fails, it cascades
and a *second* escalated heal call is triggered, so "exactly one escalated
heal call regardless of the escalated heal's own outcome" is false.  (The
counter still ends at 0 and `failure_count` counts all three invocations.) -/
theorem heal_cascade_counterexample :
    heal ⟨0, 2⟩ false [false, false, true] = (⟨3, 0⟩, [], 2) ∧ 2 ≠ 1 := by
  constructor
  · rfl
  · decide

/-- C4 amended: when the consecutive-failure counter reaches 3, an escalated
heal call is triggered and the counter is reset to zero on return from the
cascade regardless of the escalated heal's outcome, and at least one
escalated call occurs; *exactly* one escalated call occurs when the
escalated heal's own verification succeeds. -/
theorem heal_cascade_amended (s s' : HealState) (esc : Bool)
    (rest rest' : List Bool)
    (h2 : s.consecutive_fails = 2) (h3 : 3 ≤ s'.consecutive_fails + 1) :
    heal s false (false :: true :: rest) =
      (⟨s.failure_count + 2, 0⟩, rest, 1) ∧
    (heal s' esc (false :: rest')).1.consecutive_fails = 0 ∧
    1 ≤ (heal s' esc (false :: rest')).2.2 := by
  refine ⟨?_, ?_, ?_⟩
  · simp [heal, h2]
  · cases rest' with
    | nil => simp [heal, h3]
    | cons v' tl => simp [heal, h3]
  · cases rest' with
    | nil => simp [heal, h3]
    | cons v' tl => simp [heal, h3]

/-- Witness for `heal_cascade_amended` at concrete states and traces. -/
theorem heal_cascade_amended_witness :
    heal ⟨7, 2⟩ false [false, true] = (⟨9, 0⟩, [], 1) ∧
    (heal ⟨0, 4⟩ true [false]).1.consecutive_fails = 0 ∧
    1 ≤ (heal ⟨0, 4⟩ true [false]).2.2 := by
  have h := heal_cascade_amended ⟨7, 2⟩ ⟨0, 4⟩ true [] [] (by decide) (by decide)
  exact ⟨h.1, h.2.1, h.2.2⟩

/-! ### C7 — threat score formula -/

/-- C7 counterexample: at CPU 98 %, memory 100 %, 500 net connections, 10
banned IPs, 20 honeypot hits and 10 payload attacks in the last hour, the
weighted average is 99.7; the spec formula (`round`) yields 100 while the
code (`int()` truncation) returns 99, so the claimed `round` is wrong. -/
theorem threatScore_round_counterexample :
    calculateThreatScore false none 98 100 true 500 10 20 10 = (99, "critical") ∧
    threatScoreClaim 98 100 500 10 20 10 = (100, "critical") ∧
    (calculateThreatScore false none 98 100 true 500 10 20 10).1 ≠
      (threatScoreClaim 98 100 500 10 20 10).1 := by
  have hcode : calculateThreatScore false none 98 100 true 500 10 20 10 =
      (99, "critical") := by
    norm_num [calculateThreatScore, pyInt, levelOf]
  have hclaim : threatScoreClaim 98 100 500 10 20 10 = (100, "critical") := by
    norm_num [threatScoreClaim, levelOf, round_eq]
  refine ⟨hcode, hclaim, ?_⟩
  rw [hcode, hclaim]
  decide

/-- C7 amended: with the kill switch active the score is 100/critical; with
no kill switch, no global threat override and the network-connection probe
succeeding, the code computes exactly the spec's weighted-average formula
with `int()` truncation (floor) in place of `round`, clamped to `[0, 100]`,
with level thresholds 80/60/40. -/
theorem threatScore_amended (cpu mem : ℚ) (ov : Option ℤ)
    (conns banned recentHoney recentPayload : ℕ)
    (hcpu : 0 ≤ cpu) (hmem : 0 ≤ mem) :
    calculateThreatScore true ov cpu mem true conns banned recentHoney recentPayload =
      (100, "critical") ∧
    calculateThreatScore false none cpu mem true conns banned recentHoney recentPayload =
      threatScoreAmended cpu mem conns banned recentHoney recentPayload := by
  constructor
  · rfl
  · have c1 : (0 : ℚ) ≤ min cpu 100 := le_min hcpu (by norm_num)
    have c2 : (0 : ℚ) ≤ min mem 100 := le_min hmem (by norm_num)
    have c3 : (0 : ℚ) ≤ min ((conns : ℚ) / 5) 100 := le_min (by positivity) (by norm_num)
    have c4 : (0 : ℚ) ≤ min ((banned : ℚ) * 10) 100 := le_min (by positivity) (by norm_num)
    have c5 : (0 : ℚ) ≤ min ((recentHoney : ℚ) * 5) 100 := le_min (by positivity) (by norm_num)
    have c6 : (0 : ℚ) ≤ min ((recentPayload : ℚ) * 10) 100 := le_min (by positivity) (by norm_num)
    simp only [calculateThreatScore, threatScoreAmended, pyInt, if_true, Bool.false_eq_true,
      if_false]
    rw [if_neg (by norm_num : ¬ ((15 : ℚ) + 15 + 20 + 20 + 15 + 15) = 0)]
    rw [if_pos (by positivity)]
    have harg : (min cpu 100 * 15 + min mem 100 * 15 + min ((conns : ℚ) / 5) 100 * 20 +
        min ((banned : ℚ) * 10) 100 * 20 + min ((recentHoney : ℚ) * 5) 100 * 15 +
        min ((recentPayload : ℚ) * 10) 100 * 15) / (15 + 15 + 20 + 20 + 15 + 15) =
        (15 * min cpu 100 + 15 * min mem 100 + 20 * min ((conns : ℚ) / 5) 100 +
        20 * min (10 * (banned : ℚ)) 100 + 15 * min (5 * (recentHoney : ℚ)) 100 +
        15 * min (10 * (recentPayload : ℚ)) 100) / 100 := by
      ring_nf
    rw [harg]
    have hfl : (0 : ℤ) ≤ ⌊(15 * min cpu 100 + 15 * min mem 100 +
        20 * min ((conns : ℚ) / 5) 100 + 20 * min (10 * (banned : ℚ)) 100 +
        15 * min (5 * (recentHoney : ℚ)) 100 + 15 * min (10 * (recentPayload : ℚ)) 100) / 100⌋ := by
      apply Int.floor_nonneg.mpr
      positivity
    rw [max_eq_left hfl]

/-! ### C5 — anomaly streak debouncing -/

set_option maxRecDepth 8000

/-- C5 counterexample: over the 19-sample baseline of mean 50 and sample
std 1 (`calcStats = (50, 1)`), the outlier 60 is ten standard deviations
out, yet feeding it `streak_threshold = 3` consecutive times produces *no*
anomaly event at all — not one per metric as claimed — because the repeated
outliers inflate the window statistics until the third sample's z-score
falls under 2.5 and the streak resets. -/
theorem anomaly_streak_counterexample :
    calcStats (stableSamples 9) = (50, 1) ∧
    (analyzeRun DetectorState.init (triples (stableSamples 9 ++ [60, 60, 60]))).2 = [] ∧
    (analyzeRun DetectorState.init
      (triples (stableSamples 9 ++ [60, 60, 60]))).1.total_anomalies_detected = 0 := by
  refine ⟨?_, ?_, ?_⟩ <;> with_unfolding_all decide

/-- C5 amended: after the `min_samples - 1` stable values, a single
ten-standard-deviation outlier produces no anomaly (its streak is 1 < 3);
and a run whose three consecutive samples all breach the z-threshold
(escalating outliers 60, 75, 100 over the 50 ± 1 baseline) produces exactly
one anomaly event per metric.  (Three copies of the *same* outlier are not
such a run — see the counterexample.) -/
theorem anomaly_streak_amended :
    calcStats (stableSamples 9) = (50, 1) ∧
    (analyzeRun DetectorState.init (triples (stableSamples 9 ++ [60]))).2 = [] ∧
    (analyzeRun DetectorState.init (triples (stableSamples 9 ++ [60]))).1.streak_cpu = 1 ∧
    (analyzeRun DetectorState.init (triples (stableSamples 9 ++ [60, 75, 100]))).2 =
      [("CPU", "critical"), ("Memory", "critical"), ("Disk", "critical")] := by
  refine ⟨?_, ?_, ?_, ?_⟩ <;> with_unfolding_all decide

/-! ### C6 / C10 — payload inspection -/

/-- C6: `inspect_payload` checks the joined `path query body` against the
pattern classes in the fixed priority order SQLi, XSS, path traversal,
command injection; the first match wins, and on a match it appends the
payload hit, bans the IP through the escalation rule and returns the attack
type; with no match it returns `None`.  The concrete input
`"' OR 1=1--<script>x"` matches both the SQLi and the XSS class and is
classified `SQL_INJECTION`. -/
theorem inspectPayload_priority (s : EngineState) (ip path query body : String)
    (now : ℚ) :
    (sqliSearch (path ++ " " ++ query ++ " " ++ body) = true →
      inspectPayload s ip path query body now =
        (some "SQL_INJECTION",
         (banIp { s with payload_hits := pushMaxlen 500 s.payload_hits ⟨ip, "SQL_INJECTION", path, now⟩ } ip now).2)) ∧
    (sqliSearch (path ++ " " ++ query ++ " " ++ body) = false →
      xssSearch (path ++ " " ++ query ++ " " ++ body) = true →
      inspectPayload s ip path query body now =
        (some "XSS",
         (banIp { s with payload_hits := pushMaxlen 500 s.payload_hits ⟨ip, "XSS", path, now⟩ } ip now).2)) ∧
    (sqliSearch (path ++ " " ++ query ++ " " ++ body) = false →
      xssSearch (path ++ " " ++ query ++ " " ++ body) = false →
      pathTraversalSearch (path ++ " " ++ query ++ " " ++ body) = true →
      inspectPayload s ip path query body now =
        (some "PATH_TRAVERSAL",
         (banIp { s with payload_hits := pushMaxlen 500 s.payload_hits ⟨ip, "PATH_TRAVERSAL", path, now⟩ } ip now).2)) ∧
    (sqliSearch (path ++ " " ++ query ++ " " ++ body) = false →
      xssSearch (path ++ " " ++ query ++ " " ++ body) = false →
      pathTraversalSearch (path ++ " " ++ query ++ " " ++ body) = false →
      cmdInjectionSearch (path ++ " " ++ query ++ " " ++ body) = true →
      inspectPayload s ip path query body now =
        (some "CMD_INJECTION",
         (banIp { s with payload_hits := pushMaxlen 500 s.payload_hits ⟨ip, "CMD_INJECTION", path, now⟩ } ip now).2)) ∧
    (sqliSearch (path ++ " " ++ query ++ " " ++ body) = false →
      xssSearch (path ++ " " ++ query ++ " " ++ body) = false →
      pathTraversalSearch (path ++ " " ++ query ++ " " ++ body) = false →
      cmdInjectionSearch (path ++ " " ++ query ++ " " ++ body) = false →
      inspectPayload s ip path query body now = (none, s)) ∧
    (sqliSearch ("' OR 1=1--<script>x" ++ " " ++ "" ++ " " ++ "") = true ∧
     xssSearch ("' OR 1=1--<script>x" ++ " " ++ "" ++ " " ++ "") = true ∧
     (inspectPayload s ip "' OR 1=1--<script>x" "" "" now).1 = some "SQL_INJECTION") := by
  refine ⟨?_, ?_, ?_, ?_, ?_, ?_⟩
  · intro h1
    simp [inspectPayload, h1]
  · intro h1 h2
    simp [inspectPayload, h1, h2]
  · intro h1 h2 h3
    simp [inspectPayload, h1, h2, h3]
  · intro h1 h2 h3 h4
    simp [inspectPayload, h1, h2, h3, h4]
  · intro h1 h2 h3 h4
    simp [inspectPayload, h1, h2, h3, h4]
  · have e1 : sqliSearch ("' OR 1=1--<script>x" ++ " " ++ "" ++ " " ++ "") = true := by
      decide
    have e2 : xssSearch ("' OR 1=1--<script>x" ++ " " ++ "" ++ " " ++ "") = true := by
      decide
    have e1' : sqliSearch "' OR 1=1--<script>x  " = true := by decide
    exact ⟨e1, e2, by simp [inspectPayload, e1']⟩

/-- Witness for `inspectPayload_priority`: the mixed SQLi/XSS input is
classified as SQL injection. -/
theorem inspectPayload_priority_witness :
    (inspectPayload EngineState.fresh "7.7.7.7" "' OR 1=1--<script>x" "" "" 0).1 =
      some "SQL_INJECTION" := by
  have h := (inspectPayload_priority EngineState.fresh "7.7.7.7"
    "' OR 1=1--<script>x" "" "" 0).1 (by decide)
  rw [h]

/-- C10: when none of the four pattern classes matches, `inspect_payload`
returns `None` and the state is entirely unchanged — no payload hit, no
ban, no offense change, no per-IP record created or modified. -/
theorem inspectPayload_no_match_frame (s : EngineState)
    (ip path query body : String) (now : ℚ)
    (h1 : sqliSearch (path ++ " " ++ query ++ " " ++ body) = false)
    (h2 : xssSearch (path ++ " " ++ query ++ " " ++ body) = false)
    (h3 : pathTraversalSearch (path ++ " " ++ query ++ " " ++ body) = false)
    (h4 : cmdInjectionSearch (path ++ " " ++ query ++ " " ++ body) = false) :
    inspectPayload s ip path query body now = (none, s) ∧
    (inspectPayload s ip path query body now).2.payload_hits = s.payload_hits ∧
    (∀ ip' : String,
      lookupRec (inspectPayload s ip path query body now).2.failed_logins ip' =
        lookupRec s.failed_logins ip') := by
  have he : inspectPayload s ip path query body now = (none, s) := by
    simp [inspectPayload, h1, h2, h3, h4]
  exact ⟨he, by rw [he], fun ip' => by rw [he]⟩

/-- Witness for `inspectPayload_no_match_frame` on a benign request. -/
theorem inspectPayload_no_match_frame_witness :
    inspectPayload EngineState.fresh "8.8.8.8" "/data" "x=2" "fine" 0 =
      (none, EngineState.fresh) :=
  (inspectPayload_no_match_frame EngineState.fresh "8.8.8.8" "/data" "x=2" "fine" 0
    (by decide) (by decide) (by decide) (by decide)).1

/-! ### C3 — sliding-window rate limiting -/

theorem alookup_aset_self {κ α : Type} [DecidableEq κ]
    (m : List (κ × α)) (k : κ) (v : α) : alookup (aset m k v) k = some v := by
  induction m with
  | nil => simp [aset, alookup]
  | cons hd tl ih =>
    obtain ⟨k', w⟩ := hd
    by_cases h : k' = k
    · simp [aset, alookup, h]
    · simp [aset, alookup, h, ih]

theorem rateConfig_pos (cat : String) : 1 ≤ (rateConfig cat).1 := by
  unfold rateConfig
  split_ifs <;> norm_num

/-- One admitted request: circuit closed, attack mode off, no offenses,
whole stored window still fresh, below the limit. -/
theorem check_allowed_step (s : RLState) (ip cat : String) (t : ℚ) (cur : List ℚ)
    (hatt : s.attack_mode = false) (hcirc : s.circuit_open = false)
    (hoff : (alookup s.blocked_count ip).getD 0 = 0)
    (hcur : (alookup s.requests (ip, cat)).getD [] = cur)
    (hfil : ∀ u ∈ cur, t - u < ((rateConfig cat).2 : ℚ))
    (hlt : cur.length < (rateConfig cat).1) :
    check s ip cat t =
      ((true, ⟨true, cat, (rateConfig cat).1, (rateConfig cat).1 - cur.length - 1,
        none, (rateConfig cat).2, none⟩),
       { s with requests := aset s.requests (ip, cat) (cur ++ [t]) }) := by
  have hkf : cur.filter (fun ts => t - ts < ((rateConfig cat).2 : ℚ)) = cur :=
    List.filter_eq_self.mpr (fun u hu => by simpa using hfil u hu)
  have hnge : ¬ cur.length ≥ (rateConfig cat).1 := not_le.mpr hlt
  simp [check, hatt, hcirc, hoff, hcur, hkf, hnge]

/-- One rejected request: at the limit inside the window; the offense
counter becomes 1, the window is re-stored unchanged, `retry_after` is
computed from the oldest stored timestamp. -/
theorem check_reject_step (s : RLState) (ip cat : String) (t : ℚ) (cur : List ℚ)
    (hatt : s.attack_mode = false) (hcirc : s.circuit_open = false)
    (hoff : (alookup s.blocked_count ip).getD 0 = 0)
    (hcur : (alookup s.requests (ip, cat)).getD [] = cur)
    (hfil : ∀ u ∈ cur, t - u < ((rateConfig cat).2 : ℚ))
    (hge : (rateConfig cat).1 ≤ cur.length) :
    check s ip cat t =
      ((false, ⟨false, cat, (rateConfig cat).1, 0,
        some (pyInt (((rateConfig cat).2 : ℚ) - (t - cur.headD t)) + 1),
        (rateConfig cat).2, none⟩),
       { s with requests := aset s.requests (ip, cat) cur,
                blocked_count := aset s.blocked_count ip 1,
                total_blocked := s.total_blocked + 1 }) := by
  have hkf : cur.filter (fun ts => t - ts < ((rateConfig cat).2 : ℚ)) = cur :=
    List.filter_eq_self.mpr (fun u hu => by simpa using hfil u hu)
  simp [check, hatt, hcirc, hoff, hcur, hkf, hge]

/-- A request whose whole stored window has aged out is admitted again
(provided fewer than 5 offenses are recorded, so no penalty halving). -/
theorem check_after_window (s : RLState) (ip cat : String) (t : ℚ) (cur : List ℚ)
    (hatt : s.attack_mode = false) (hcirc : s.circuit_open = false)
    (hoff : (alookup s.blocked_count ip).getD 0 < 5)
    (hcur : (alookup s.requests (ip, cat)).getD [] = cur)
    (hfil : ∀ u ∈ cur, ((rateConfig cat).2 : ℚ) ≤ t - u) :
    (check s ip cat t).1.1 = true := by
  have hkf : cur.filter (fun ts => t - ts < ((rateConfig cat).2 : ℚ)) = [] :=
    List.filter_eq_nil_iff.mpr (fun u hu => by simpa using not_lt.mpr (hfil u hu))
  have h10 : ¬ (alookup s.blocked_count ip).getD 0 ≥ 10 := by omega
  have h5 : ¬ (alookup s.blocked_count ip).getD 0 ≥ 5 := by omega
  have hnge : ¬ (0 ≥ (rateConfig cat).1) := by
    have := rateConfig_pos cat
    omega
  simp [check, hatt, hcirc, hcur, hkf, h10, h5, hnge]

/-- A run of requests that all fit inside the window and under the limit is
admitted in full, and the state keeps circuit/attack flags, a clean offense
record, and exactly the accumulated timestamps. -/
theorem runChecks_all_allowed (ip cat : String) (times : List ℚ) :
    ∀ (s : RLState) (cur : List ℚ),
    s.attack_mode = false → s.circuit_open = false →
    (alookup s.blocked_count ip).getD 0 = 0 →
    (alookup s.requests (ip, cat)).getD [] = cur →
    cur.length + times.length ≤ (rateConfig cat).1 →
    (∀ t ∈ times, ∀ u ∈ cur, t - u < ((rateConfig cat).2 : ℚ)) →
    times.Pairwise (fun a b => b - a < ((rateConfig cat).2 : ℚ)) →
    (runChecks s ip cat times).1 = times.map (fun _ => true) ∧
    (runChecks s ip cat times).2.attack_mode = false ∧
    (runChecks s ip cat times).2.circuit_open = false ∧
    (alookup (runChecks s ip cat times).2.blocked_count ip).getD 0 = 0 ∧
    (alookup (runChecks s ip cat times).2.requests (ip, cat)).getD [] = cur ++ times := by
  induction times with
  | nil =>
    intro s cur h1 h2 h3 h4 _ _ _
    simp [runChecks, h1, h2, h3, h4]
  | cons t ts ih =>
    intro s cur hatt hcirc hoff hcur hlen hwin hpair
    rw [List.pairwise_cons] at hpair
    have hlt : cur.length < (rateConfig cat).1 := by
      simp only [List.length_cons] at hlen
      omega
    have hstep := check_allowed_step s ip cat t cur hatt hcirc hoff hcur
      (fun u hu => hwin t (List.mem_cons_self t ts) u hu) hlt
    have hwin' : ∀ t' ∈ ts, ∀ u ∈ cur ++ [t], t' - u < ((rateConfig cat).2 : ℚ) := by
      intro t' ht' u hu
      rcases List.mem_append.mp hu with h | h
      · exact hwin t' (List.mem_cons_of_mem _ ht') u h
      · rw [List.mem_singleton.mp h]
        exact hpair.1 t' ht'
    have ihres := ih { s with requests := aset s.requests (ip, cat) (cur ++ [t]) }
      (cur ++ [t]) hatt hcirc hoff (by simp [alookup_aset_self])
      (by simp only [List.length_append, List.length_singleton, List.length_cons,
        List.length_nil] at hlen ⊢; omega)
      hwin' hpair.2
    refine ⟨?_, ?_, ?_, ?_, ?_⟩ <;>
      simp [runChecks, hstep, ihres.1, ihres.2.1, ihres.2.2.1, ihres.2.2.2.1,
        ihres.2.2.2.2]

/-- C3: with attack mode off, the circuit breaker closed and no recorded
offenses for the IP, a run of `L = max_requests` requests inside the window
is fully admitted; the `(L+1)`-th request still inside the window is
rejected with `retry_after > 0`; and a request made once the whole window
has aged out (`W` seconds past every admitted request) is admitted again. -/
theorem check_rate_limit_window (s : RLState) (ip cat : String)
    (times : List ℚ) (tB tA : ℚ)
    (hatt : s.attack_mode = false) (hcirc : s.circuit_open = false)
    (hoff : (alookup s.blocked_count ip).getD 0 = 0)
    (hkey : (alookup s.requests (ip, cat)).getD [] = [])
    (hlen : times.length = (rateConfig cat).1)
    (hpair : times.Pairwise (fun a b => b - a < ((rateConfig cat).2 : ℚ)))
    (hB : ∀ t ∈ times, tB - t < ((rateConfig cat).2 : ℚ))
    (hA : ∀ t ∈ times, ((rateConfig cat).2 : ℚ) ≤ tA - t) :
    (runChecks s ip cat times).1 = times.map (fun _ => true) ∧
    (check (runChecks s ip cat times).2 ip cat tB).1.1 = false ∧
    (∃ r : ℤ, (check (runChecks s ip cat times).2 ip cat tB).1.2.retry_after = some r ∧
      0 < r) ∧
    (check (check (runChecks s ip cat times).2 ip cat tB).2 ip cat tA).1.1 = true := by
  obtain ⟨h1, ha, hc, ho, hk⟩ := runChecks_all_allowed ip cat times s [] hatt hcirc
    hoff hkey (by simp only [List.length_nil]; omega)
    (by intro t ht u hu; simp at hu) hpair
  have hne : times ≠ [] := by
    intro he
    have hp := rateConfig_pos cat
    rw [he] at hlen
    simp only [List.length_nil] at hlen
    omega
  have hrej := check_reject_step (runChecks s ip cat times).2 ip cat tB times
    ha hc ho (by simpa using hk) hB (le_of_eq hlen.symm)
  have hhead : times.headD tB ∈ times := by
    cases times with
    | nil => exact absurd rfl hne
    | cons a l => simp
  have hretry : (0 : ℤ) < pyInt (((rateConfig cat).2 : ℚ) - (tB - times.headD tB)) + 1 := by
    have harg : (0 : ℚ) ≤ ((rateConfig cat).2 : ℚ) - (tB - times.headD tB) := by
      have := hB _ hhead
      linarith
    have : (0 : ℤ) ≤ pyInt (((rateConfig cat).2 : ℚ) - (tB - times.headD tB)) := by
      rw [pyInt, if_pos harg]
      exact Int.floor_nonneg.mpr harg
    omega
  refine ⟨h1, by rw [hrej], ⟨_, by rw [hrej], hretry⟩, ?_⟩
  rw [hrej]
  apply check_after_window _ ip cat tA times
  · exact ha
  · exact hc
  · simp [alookup_aset_self]
  · simp [alookup_aset_self]
  · exact hA

/-- Witness for `check_rate_limit_window`: the `login` category (limit 5,
window 60 s), five requests at seconds 0–4, a sixth at second 5 (rejected),
and one at second 70 (admitted). -/
theorem check_rate_limit_window_witness :
    (runChecks ⟨[], [], 0, false, false⟩ "3.3.3.3" "login" [0, 1, 2, 3, 4]).1 =
      [true, true, true, true, true] ∧
    (check (runChecks ⟨[], [], 0, false, false⟩ "3.3.3.3" "login" [0, 1, 2, 3, 4]).2
      "3.3.3.3" "login" 5).1.1 = false ∧
    (check (check (runChecks ⟨[], [], 0, false, false⟩ "3.3.3.3" "login"
      [0, 1, 2, 3, 4]).2 "3.3.3.3" "login" 5).2 "3.3.3.3" "login" 70).1.1 = true := by
  have h := check_rate_limit_window ⟨[], [], 0, false, false⟩ "3.3.3.3" "login"
    [0, 1, 2, 3, 4] 5 70 rfl rfl (by simp [alookup]) (by simp [alookup])
    (by simp [rateConfig])
    (by norm_num [List.pairwise_cons, rateConfig])
    (by intro t ht; fin_cases ht <;> norm_num [rateConfig])
    (by intro t ht; fin_cases ht <;> norm_num [rateConfig])
  exact ⟨h.1, h.2.1, h.2.2.2⟩

/-- Witness for `threatScore_amended` at concrete sensor readings. -/
theorem threatScore_amended_witness :
    calculateThreatScore true none 50 60 true 100 1 0 0 = (100, "critical") ∧
    calculateThreatScore false none 50 60 true 100 1 0 0 =
      threatScoreAmended 50 60 100 1 0 0 := by
  have h := threatScore_amended 50 60 none 100 1 0 0 (by norm_num) (by norm_num)
  exact h

end Brahmastra
